import Mathlib

/-
  Shallow embedding of src/src/game/InstanceSaveMgr.h (MaNGOS instance
  save manager header).

  Pointers (Player*, Group*) are modelled as numeric handles; the C++
  `std::list` members are Lean `List`s; the `UNORDERED_MAP` members are
  association lists; the `std::multimap` reset-time queue is a list of
  (time, event) pairs kept sorted by time, new entries with an existing
  key going after the present ones.

  Bodies that live in the corresponding .cpp file (not part of this
  repository snapshot) are modelled from the specification document and
  say so in their doc comments.
-/

namespace InstanceSaveMgr

/-- Handle standing for a `Player*` pointer in the source. -/
abbrev PlayerHandle := Nat

/-- Handle standing for a `Group*` pointer in the source. -/
abbrev GroupHandle := Nat

/-- Numeric code standing for the `Difficulty` enumeration of the source. -/
abbrev Difficulty := Nat

/-- State of the C++ class `InstanceSave`: the two reference lists, the
reset time, the identity fields and the two flags, in declaration order. -/
structure InstanceSave where
  m_playerList : List PlayerHandle
  m_groupList : List GroupHandle
  m_resetTime : Nat
  m_instanceid : Nat
  m_mapid : Nat
  m_difficulty : Difficulty
  m_canReset : Bool
  m_usedByMap : Bool
deriving DecidableEq

namespace InstanceSave

/-- Modelled from the spec: the body of `InstanceSave::UnloadIfEmpty` is in
the .cpp file, which is not part of this repository snapshot (only the
declaration at InstanceSaveMgr.h:109 is). Per the spec a binding is
"destroyed exactly when both reference sets become empty and `usedByMap`
is false"; this function reports that eligibility for destruction. -/
def UnloadIfEmpty (s : InstanceSave) : Bool :=
  s.m_playerList.isEmpty && s.m_groupList.isEmpty && !s.m_usedByMap

/-- Embedding of `InstanceSave::AddPlayer`:
`m_playerList.push_back(player)` appends unconditionally. -/
def AddPlayer (player : PlayerHandle) (s : InstanceSave) : InstanceSave :=
  { s with m_playerList := s.m_playerList ++ [player] }

/-- Embedding of `InstanceSave::RemovePlayer`:
`m_playerList.remove(player)` erases every element equal to `player`
(`std::list::remove` semantics), then the result of `UnloadIfEmpty()` is
returned. The pair is (reported eligibility, new state). -/
def RemovePlayer (player : PlayerHandle) (s : InstanceSave) : Bool × InstanceSave :=
  let s1 := { s with m_playerList := s.m_playerList.filter (fun x => x != player) }
  (UnloadIfEmpty s1, s1)

/-- Embedding of `InstanceSave::AddGroup`:
`m_groupList.push_back(group)` appends unconditionally. -/
def AddGroup (group : GroupHandle) (s : InstanceSave) : InstanceSave :=
  { s with m_groupList := s.m_groupList ++ [group] }

/-- Embedding of `InstanceSave::RemoveGroup`:
`m_groupList.remove(group)` erases every element equal to `group`, then
the result of `UnloadIfEmpty()` is returned. -/
def RemoveGroup (group : GroupHandle) (s : InstanceSave) : Bool × InstanceSave :=
  let s1 := { s with m_groupList := s.m_groupList.filter (fun x => x != group) }
  (UnloadIfEmpty s1, s1)

/-- Embedding of `InstanceSave::SetUsedByMapState`: sets `m_usedByMap`
and, when the new state is false, runs `UnloadIfEmpty()`; the Bool
component records the eligibility reported by that check (false when the
check did not run). -/
def SetUsedByMapState (state : Bool) (s : InstanceSave) : Bool × InstanceSave :=
  let s1 := { s with m_usedByMap := state }
  (if state then false else UnloadIfEmpty s1, s1)

/-- Embedding of `InstanceSave::GetPlayerCount`: the return type is
`uint8`, so `m_playerList.size()` is truncated modulo 256. -/
def GetPlayerCount (s : InstanceSave) : Nat :=
  s.m_playerList.length % 256

/-- Embedding of `InstanceSave::GetGroupCount`: the return type is
`uint8`, so `m_groupList.size()` is truncated modulo 256. -/
def GetGroupCount (s : InstanceSave) : Nat :=
  s.m_groupList.length % 256

end InstanceSave

/-- One call in a sequence of binding mutations, as quantified over by the
spec's lifecycle property. -/
inductive BindingOp where
  | addParticipant (p : PlayerHandle)
  | removeParticipant (p : PlayerHandle)
  | addGroup (g : GroupHandle)
  | removeGroup (g : GroupHandle)
  | setUsedByMap (b : Bool)
deriving DecidableEq

/-- Effect of one binding operation: the Bool component is true exactly
when the operation triggered `UnloadIfEmpty` and that check reported the
binding eligible for destruction. -/
def stepOp : BindingOp → InstanceSave → Bool × InstanceSave
  | .addParticipant p, s => (false, InstanceSave.AddPlayer p s)
  | .removeParticipant p, s => InstanceSave.RemovePlayer p s
  | .addGroup g, s => (false, InstanceSave.AddGroup g s)
  | .removeGroup g, s => InstanceSave.RemoveGroup g s
  | .setUsedByMap b, s => InstanceSave.SetUsedByMapState b s

/-- Runs a sequence of binding operations; the Bool component is true
exactly when some triggered check along the way reported the binding
eligible for destruction (at which point the real object is destroyed). -/
def runOps : List BindingOp → InstanceSave → Bool × InstanceSave
  | [], s => (false, s)
  | op :: rest, s =>
    let r := stepOp op s
    let r2 := runOps rest r.2
    (r.1 || r2.1, r2.2)

/-- The `ResetEventType` enumeration of the source. -/
inductive ResetEventType where
  | RESET_EVENT_DUNGEON
  | RESET_EVENT_INFORM_1
  | RESET_EVENT_INFORM_2
  | RESET_EVENT_INFORM_3
  | RESET_EVENT_INFORM_LAST
deriving DecidableEq

/-- The `InstanceResetEvent` struct of the source: event type plus the
identity fields (mapid, difficulty, instanceId). -/
structure InstanceResetEvent where
  type : ResetEventType
  difficulty : Difficulty
  mapid : Nat
  instanceId : Nat
deriving DecidableEq

namespace InstanceResetEvent

/-- Embedding of `InstanceResetEvent::operator==` (InstanceSaveMgr.h:146):
`e.mapid == mapid && e.difficulty == difficulty && e.instanceId == instanceId`,
where the receiver is the first argument and `e` the second. The `type`
field takes no part in the comparison. -/
def eqOp (a e : InstanceResetEvent) : Bool :=
  e.mapid == a.mapid && e.difficulty == a.difficulty && e.instanceId == a.instanceId

end InstanceResetEvent

/-- Lookup in an association list keyed by (mapid, difficulty); models
`m_resetTimeByMapDifficulty.find(MAKE_PAIR32(mapid,d))`. The bit-packed
`MAKE_PAIR32` key is defined outside this repository snapshot; per the
spec any composite key for the pair suffices, so the pair itself is used. -/
def assocFind (k : Nat × Difficulty) : List ((Nat × Difficulty) × Nat) → Option Nat
  | [] => none
  | (k1, v) :: rest => if k1 = k then some v else assocFind k rest

/-- Update-or-insert in the association list; models
`m_resetTimeByMapDifficulty[key] = t`. -/
def assocSet (k : Nat × Difficulty) (v : Nat) :
    List ((Nat × Difficulty) × Nat) → List ((Nat × Difficulty) × Nat)
  | [] => [(k, v)]
  | (k1, v1) :: rest => if k1 = k then (k, v) :: rest else (k1, v1) :: assocSet k v rest

/-- Insertion into the time-ordered reset queue; models
`std::multimap::insert`, which places a new entry after any existing
entries with the same key. -/
def queueInsert (time : Nat) (event : InstanceResetEvent) :
    List (Nat × InstanceResetEvent) → List (Nat × InstanceResetEvent)
  | [] => [(time, event)]
  | (t, e) :: rest =>
    if time < t then (time, event) :: (t, e) :: rest
    else (t, e) :: queueInsert time event rest

/-- Removal of the first queue entry whose event compares equal (by
`InstanceResetEvent::operator==`) to the given event; the rest of the
queue is untouched. -/
def queueRemoveFirst (event : InstanceResetEvent) :
    List (Nat × InstanceResetEvent) → List (Nat × InstanceResetEvent)
  | [] => []
  | (t, e) :: rest =>
    if InstanceResetEvent.eqOp e event then rest
    else (t, e) :: queueRemoveFirst event rest

/-- State of the C++ class `InstanceResetScheduler`: the per-(map,
difficulty) reset-time table and the time-ordered event queue. -/
structure InstanceResetScheduler where
  m_resetTimeByMapDifficulty : List ((Nat × Difficulty) × Nat)
  m_resetTimeQueue : List (Nat × InstanceResetEvent)
deriving DecidableEq

namespace InstanceResetScheduler

/-- Embedding of `InstanceResetScheduler::GetResetTimeFor`
(InstanceSaveMgr.h:158): look the pair up in the table and return the
stored time, or 0 when absent. A pure read: it takes the state and
returns only a number. -/
def GetResetTimeFor (mapid : Nat) (d : Difficulty) (st : InstanceResetScheduler) : Nat :=
  match assocFind (mapid, d) st.m_resetTimeByMapDifficulty with
  | some t => t
  | none => 0

/-- Embedding of `InstanceResetScheduler::SetResetTimeFor`
(InstanceSaveMgr.h:167): write the entry for the pair; the queue field is
untouched. -/
def SetResetTimeFor (mapid : Nat) (d : Difficulty) (t : Nat)
    (st : InstanceResetScheduler) : InstanceResetScheduler :=
  { st with m_resetTimeByMapDifficulty := assocSet (mapid, d) t st.m_resetTimeByMapDifficulty }

/-- Modelled from the spec: the body of
`InstanceResetScheduler::ScheduleReset` is in the .cpp file, which is not
part of this repository snapshot (only the declaration at
InstanceSaveMgr.h:172 is). Per the spec: if `add`, insert `event` at key
`time`; if not `add`, locate and remove the first queue entry whose event
compares equal by the identity fields — the removal makes no use of the
passed time. -/
def ScheduleReset (add : Bool) (time : Nat) (event : InstanceResetEvent)
    (st : InstanceResetScheduler) : InstanceResetScheduler :=
  if add then { st with m_resetTimeQueue := queueInsert time event st.m_resetTimeQueue }
  else { st with m_resetTimeQueue := queueRemoveFirst event st.m_resetTimeQueue }

end InstanceResetScheduler

/-- Modelled from the spec: the body of `InstanceResetScheduler::Update`
is in the .cpp file, which is not part of this repository snapshot (only
the declaration at InstanceSaveMgr.h:174 is). Per the spec, at timestamp
`now` it repeatedly pops every queue entry whose key is at most `now`,
in queue order, until the next entry's key is in the future or the queue
is empty. The pair returned is (fired entries in firing order, remaining
queue); the registry callbacks run per fired entry are external to the
scheduler and are not modelled. -/
def updateQueue (now : Nat) :
    List (Nat × InstanceResetEvent) →
    List (Nat × InstanceResetEvent) × List (Nat × InstanceResetEvent)
  | [] => ([], [])
  | (t, e) :: rest =>
    if t ≤ now then
      let r := updateQueue now rest
      ((t, e) :: r.1, r.2)
    else ([], (t, e) :: rest)

namespace InstanceResetScheduler

/-- Update of the whole scheduler state at timestamp `now`: drains the
queue with `updateQueue` and keeps the table; returns the fired entries
alongside the new state. -/
def Update (now : Nat) (st : InstanceResetScheduler) :
    List (Nat × InstanceResetEvent) × InstanceResetScheduler :=
  let r := updateQueue now st.m_resetTimeQueue
  (r.1, { st with m_resetTimeQueue := r.2 })

end InstanceResetScheduler

/-- Lookup in the registry's id-keyed association list; models
`m_instanceSaveById.find(InstanceId)`. -/
def findSave (instanceId : Nat) : List (Nat × InstanceSave) → Option InstanceSave
  | [] => none
  | (k, v) :: rest => if k = instanceId then some v else findSave instanceId rest

/-- State of the C++ class `InstanceSaveManager`: the id-keyed binding
index, plus two observation logs — the ids persisted by `SaveToDB` calls
and the individual reset events handed to the scheduler — which record
the calls the registry makes to its collaborators. -/
structure InstanceSaveManager where
  m_instanceSaveById : List (Nat × InstanceSave)
  persistedIds : List Nat
  scheduledResetEvents : List (Nat × InstanceResetEvent)
deriving DecidableEq

namespace InstanceSaveManager

/-- Modelled from the spec: the body of
`InstanceSaveManager::AddInstanceSave` is in the .cpp file, which is not
part of this repository snapshot (only the declaration at
InstanceSaveMgr.h:200 is). Per the spec: return the existing binding for
`instanceId` if present; else construct a new binding, insert it, and —
only when not loading from storage — persist it and, for dungeon-type
instances, schedule its individual reset event. `isDungeonMap` stands for
the content-template query that classifies the map as dungeon-type. -/
def AddInstanceSave (isDungeonMap : Bool) (mapId instanceId : Nat)
    (difficulty : Difficulty) (resetTime : Nat) (canReset : Bool) (load : Bool)
    (st : InstanceSaveManager) : InstanceSave × InstanceSaveManager :=
  match findSave instanceId st.m_instanceSaveById with
  | some save => (save, st)
  | none =>
    let save : InstanceSave :=
      { m_playerList := [], m_groupList := [], m_resetTime := resetTime,
        m_instanceid := instanceId, m_mapid := mapId, m_difficulty := difficulty,
        m_canReset := canReset, m_usedByMap := false }
    let st1 := { st with m_instanceSaveById := st.m_instanceSaveById ++ [(instanceId, save)] }
    if load then (save, st1)
    else
      let st2 := { st1 with persistedIds := st1.persistedIds ++ [instanceId] }
      let st3 :=
        if isDungeonMap then
          { st2 with scheduledResetEvents := st2.scheduledResetEvents ++
              [(resetTime,
                { type := ResetEventType.RESET_EVENT_DUNGEON, difficulty := difficulty,
                  mapid := mapId, instanceId := instanceId })] }
        else st2
      (save, st3)

end InstanceSaveManager

end InstanceSaveMgr

namespace InstanceSaveMgr

theorem UnloadIfEmpty_eq_true (s : InstanceSave) :
    InstanceSave.UnloadIfEmpty s = true ↔
      s.m_playerList = [] ∧ s.m_groupList = [] ∧ s.m_usedByMap = false := by
  simp [InstanceSave.UnloadIfEmpty, and_assoc]

theorem assocFind_assocSet_self (k : Nat × Difficulty) (v : Nat)
    (l : List ((Nat × Difficulty) × Nat)) :
    assocFind k (assocSet k v l) = some v := by
  induction l with
  | nil => simp [assocSet, assocFind]
  | cons hd tl ih =>
    obtain ⟨k1, v1⟩ := hd
    by_cases hk : k1 = k
    · simp [assocSet, assocFind, hk]
    · simp [assocSet, assocFind, hk, ih]

theorem assocFind_assocSet_of_ne (k k2 : Nat × Difficulty) (v : Nat)
    (l : List ((Nat × Difficulty) × Nat)) (h : k2 ≠ k) :
    assocFind k2 (assocSet k v l) = assocFind k2 l := by
  have hkk : k ≠ k2 := fun hh => h hh.symm
  induction l with
  | nil => simp [assocSet, assocFind, hkk]
  | cons hd tl ih =>
    obtain ⟨k1, v1⟩ := hd
    by_cases hk : k1 = k
    · subst hk
      simp [assocSet, assocFind, hkk]
    · simp only [assocSet, if_neg hk, assocFind, ih]

/-- C4: two `InstanceResetEvent` values compare equal under `operator==`
exactly when their mapid, difficulty and instanceId fields agree; in
particular two events whose `type` fields differ but whose identity
triples agree compare equal. -/
theorem C4_event_equality_by_identity_fields :
    (∀ a b : InstanceResetEvent, InstanceResetEvent.eqOp a b = true ↔
      (a.mapid = b.mapid ∧ a.difficulty = b.difficulty ∧ a.instanceId = b.instanceId)) ∧
    (∀ a b : InstanceResetEvent, a.type ≠ b.type → a.mapid = b.mapid →
      a.difficulty = b.difficulty → a.instanceId = b.instanceId →
      InstanceResetEvent.eqOp a b = true) := by
  constructor
  · intro a b
    simp only [InstanceResetEvent.eqOp, Bool.and_eq_true, beq_iff_eq, and_assoc]
    constructor
    · rintro ⟨h1, h2, h3⟩
      exact ⟨h1.symm, h2.symm, h3.symm⟩
    · rintro ⟨h1, h2, h3⟩
      exact ⟨h1.symm, h2.symm, h3.symm⟩
  · intro a b htype h1 h2 h3
    simp only [InstanceResetEvent.eqOp, Bool.and_eq_true, beq_iff_eq, and_assoc]
    exact ⟨h1.symm, h2.symm, h3.symm⟩

/-- Witness for C4 at concrete events differing only in `type`. -/
theorem C4_witness :
    InstanceResetEvent.eqOp
      ⟨ResetEventType.RESET_EVENT_DUNGEON, 2, 1, 3⟩
      ⟨ResetEventType.RESET_EVENT_INFORM_1, 2, 1, 3⟩ = true :=
  C4_event_equality_by_identity_fields.2 _ _ (by decide) rfl rfl rfl

/-- C10: `GetPlayerCount` and `GetGroupCount` report the list size
truncated to an unsigned 8-bit value, n mod 256, so for more than 255
entries the reported count differs from the true count. -/
theorem C10_counts_truncated_mod_256 :
    ∀ s : InstanceSave,
      InstanceSave.GetPlayerCount s = s.m_playerList.length % 256 ∧
      InstanceSave.GetGroupCount s = s.m_groupList.length % 256 ∧
      (255 < s.m_playerList.length →
        InstanceSave.GetPlayerCount s ≠ s.m_playerList.length) ∧
      (255 < s.m_groupList.length →
        InstanceSave.GetGroupCount s ≠ s.m_groupList.length) := by
  intro s
  refine ⟨rfl, rfl, ?_, ?_⟩ <;> intro h
  · have h2 : s.m_playerList.length % 256 < 256 := Nat.mod_lt _ (by omega)
    simp only [InstanceSave.GetPlayerCount]
    omega
  · have h2 : s.m_groupList.length % 256 < 256 := Nat.mod_lt _ (by omega)
    simp only [InstanceSave.GetGroupCount]
    omega

set_option maxRecDepth 4000 in
/-- Witness for C10 on a binding with 256 bound players. -/
theorem C10_witness :
    InstanceSave.GetPlayerCount ⟨List.replicate 256 0, [], 0, 0, 0, 0, false, false⟩ ≠
      (List.replicate 256 0).length :=
  (C10_counts_truncated_mod_256 ⟨List.replicate 256 0, [], 0, 0, 0, 0, false, false⟩).2.2.1
    (by decide)

/-- C8: `GetResetTimeFor` returns 0 when the pair is absent from the
table, modifies nothing (it takes the state and returns only a number),
and returns `t` right after `SetResetTimeFor` stored `t` for the pair. -/
theorem C8_get_reset_time_default_and_roundtrip :
    ∀ (st : InstanceResetScheduler) (m : Nat) (d : Difficulty) (t : Nat),
      (assocFind (m, d) st.m_resetTimeByMapDifficulty = none →
        InstanceResetScheduler.GetResetTimeFor m d st = 0) ∧
      InstanceResetScheduler.GetResetTimeFor m d
        (InstanceResetScheduler.SetResetTimeFor m d t st) = t := by
  intro st m d t
  constructor
  · intro h
    simp [InstanceResetScheduler.GetResetTimeFor, h]
  · simp [InstanceResetScheduler.GetResetTimeFor, InstanceResetScheduler.SetResetTimeFor,
      assocFind_assocSet_self]

/-- Witness for C8 on the empty table. -/
theorem C8_witness :
    InstanceResetScheduler.GetResetTimeFor 1 2 ⟨[], []⟩ = 0 :=
  (C8_get_reset_time_default_and_roundtrip ⟨[], []⟩ 1 2 3).1 rfl

/-- C9: `SetResetTimeFor` writes only the entry for its (mapId,
difficulty) pair — the event queue and the value read back for every
other pair are unchanged. -/
theorem C9_set_reset_time_frame :
    ∀ (st : InstanceResetScheduler) (m : Nat) (d : Difficulty) (t : Nat),
      (InstanceResetScheduler.SetResetTimeFor m d t st).m_resetTimeQueue =
        st.m_resetTimeQueue ∧
      ∀ (m2 : Nat) (d2 : Difficulty), (m2, d2) ≠ (m, d) →
        InstanceResetScheduler.GetResetTimeFor m2 d2
            (InstanceResetScheduler.SetResetTimeFor m d t st) =
          InstanceResetScheduler.GetResetTimeFor m2 d2 st := by
  intro st m d t
  refine ⟨rfl, ?_⟩
  intro m2 d2 h
  simp [InstanceResetScheduler.GetResetTimeFor, InstanceResetScheduler.SetResetTimeFor,
    assocFind_assocSet_of_ne _ _ _ _ h]

/-- Witness for C9 on a one-entry table. -/
theorem C9_witness :
    InstanceResetScheduler.GetResetTimeFor 5 1
        (InstanceResetScheduler.SetResetTimeFor 1 2 7 ⟨[((5, 1), 10)], []⟩) =
      InstanceResetScheduler.GetResetTimeFor 5 1 ⟨[((5, 1), 10)], []⟩ :=
  (C9_set_reset_time_frame ⟨[((5, 1), 10)], []⟩ 1 2 7).2 5 1 (by decide)

end InstanceSaveMgr

namespace InstanceSaveMgr

/-- C6 counterexample: `AddPlayer` is `std::list::push_back`, so adding a
participant already present leaves two occurrences, not one — the
reference containers are lists, not sets. -/
theorem C6_counterexample :
    (1 ∈ (⟨[1], [], 0, 0, 0, 0, false, false⟩ : InstanceSave).m_playerList) ∧
    (InstanceSave.AddPlayer 1 ⟨[1], [], 0, 0, 0, 0, false, false⟩).m_playerList.count 1 ≠ 1 := by
  decide

/-- C6 (amended): the reference containers are lists with multiset
behaviour: `AddPlayer`/`AddGroup` always append, so adding a handle that
is already present increases its occurrence count by one (leaving
duplicates), and `RemovePlayer`/`RemoveGroup` erase every occurrence of
the handle. -/
theorem C6_reference_lists_append_and_remove_all :
    ∀ (s : InstanceSave) (p : PlayerHandle) (g : GroupHandle),
      (InstanceSave.AddPlayer p s).m_playerList.count p = s.m_playerList.count p + 1 ∧
      (InstanceSave.AddGroup g s).m_groupList.count g = s.m_groupList.count g + 1 ∧
      (InstanceSave.RemovePlayer p s).2.m_playerList.count p = 0 ∧
      (InstanceSave.RemoveGroup g s).2.m_groupList.count g = 0 := by
  intro s p g
  refine ⟨?_, ?_, ?_, ?_⟩
  · simp [InstanceSave.AddPlayer, List.count_append]
  · simp [InstanceSave.AddGroup, List.count_append]
  · simp [InstanceSave.RemovePlayer, List.count_eq_zero, List.mem_filter]
  · simp [InstanceSave.RemoveGroup, List.count_eq_zero, List.mem_filter]

/-- C7 counterexample: on a binding with both reference lists empty and
`usedByMap` false, removing an absent participant still runs
`UnloadIfEmpty`, which reports the binding eligible for destruction — so
the call is not free of effect on the binding's lifetime. -/
theorem C7_counterexample :
    (1 ∉ (⟨[], [], 0, 0, 0, 0, false, false⟩ : InstanceSave).m_playerList) ∧
    (InstanceSave.RemovePlayer 1 ⟨[], [], 0, 0, 0, 0, false, false⟩).1 = true := by
  decide

/-- C7 (amended): removing an absent participant (or group) leaves the
binding state unchanged for every state; it does not destroy the binding
provided the binding was not already eligible for destruction (some
reference remains or `usedByMap` is true) — on an already-eligible state
the triggered `UnloadIfEmpty` check still reports destruction. -/
theorem C7_remove_absent_is_noop_on_state :
    ∀ (s : InstanceSave) (p : PlayerHandle) (g : GroupHandle),
      (p ∉ s.m_playerList →
        (InstanceSave.RemovePlayer p s).2 = s ∧
        (InstanceSave.UnloadIfEmpty s = false →
          (InstanceSave.RemovePlayer p s).1 = false)) ∧
      (g ∉ s.m_groupList →
        (InstanceSave.RemoveGroup g s).2 = s ∧
        (InstanceSave.UnloadIfEmpty s = false →
          (InstanceSave.RemoveGroup g s).1 = false)) := by
  intro s p g
  constructor
  · intro hp
    have hl : s.m_playerList.filter (fun x => x != p) = s.m_playerList := by
      apply List.filter_eq_self.mpr
      intro a ha
      simp only [bne_iff_ne, ne_eq, decide_eq_true_eq]
      exact fun hh => hp (hh ▸ ha)
    have hs : (InstanceSave.RemovePlayer p s).2 = s := by
      simp only [InstanceSave.RemovePlayer, hl]
    refine ⟨hs, ?_⟩
    intro hne
    have h1 : (InstanceSave.RemovePlayer p s).1 =
        InstanceSave.UnloadIfEmpty (InstanceSave.RemovePlayer p s).2 := rfl
    rw [h1, hs, hne]
  · intro hg
    have hl : s.m_groupList.filter (fun x => x != g) = s.m_groupList := by
      apply List.filter_eq_self.mpr
      intro a ha
      simp only [bne_iff_ne, ne_eq, decide_eq_true_eq]
      exact fun hh => hg (hh ▸ ha)
    have hs : (InstanceSave.RemoveGroup g s).2 = s := by
      simp only [InstanceSave.RemoveGroup, hl]
    refine ⟨hs, ?_⟩
    intro hne
    have h1 : (InstanceSave.RemoveGroup g s).1 =
        InstanceSave.UnloadIfEmpty (InstanceSave.RemoveGroup g s).2 := rfl
    rw [h1, hs, hne]

/-- Witness for C7 on a binding that still holds a group reference. -/
theorem C7_witness :
    (InstanceSave.RemovePlayer 1 ⟨[], [2], 0, 0, 0, 0, false, false⟩).2 =
      ⟨[], [2], 0, 0, 0, 0, false, false⟩ ∧
    (InstanceSave.RemovePlayer 1 ⟨[], [2], 0, 0, 0, 0, false, false⟩).1 = false := by
  have h := (C7_remove_absent_is_noop_on_state
    ⟨[], [2], 0, 0, 0, 0, false, false⟩ 1 1).1 (by decide)
  exact ⟨h.1, h.2 (by decide)⟩

end InstanceSaveMgr

namespace InstanceSaveMgr

theorem runOps_append (xs ys : List BindingOp) (s : InstanceSave) :
    runOps (xs ++ ys) s =
      ((runOps xs s).1 || (runOps ys (runOps xs s).2).1,
        (runOps ys (runOps xs s).2).2) := by
  induction xs generalizing s with
  | nil => simp [runOps]
  | cons op rest ih =>
    simp only [List.cons_append, runOps, List.append_eq]
    rw [ih]
    simp [Bool.or_assoc]

/-- C1 counterexample: a sequence that continues past the destruction
point breaks the claimed equivalence. Starting from a binding with empty
lists and `usedByMap` false, removing an absent participant triggers
`UnloadIfEmpty`, which reports the binding eligible for destruction; a
subsequent add leaves the final participant list non-empty, so the
claimed iff (destroyed exactly when the end state is empty and unused)
fails at this input. -/
theorem C1_counterexample :
    (runOps [BindingOp.removeParticipant 1, BindingOp.addParticipant 1]
        ⟨[], [], 0, 0, 0, 0, false, false⟩).1 = true ∧
    (runOps [BindingOp.removeParticipant 1, BindingOp.addParticipant 1]
        ⟨[], [], 0, 0, 0, 0, false, false⟩).2.m_playerList ≠ [] := by
  decide

/-- C1 (amended): for every nonempty call sequence in which no check
triggered before the final operation reports eligibility (the binding
survives up to the last call), the binding is destroyed if and only if at
the end of the sequence both reference lists are empty and `usedByMap` is
false. The check is re-evaluated by the final operation exactly when it
is a removal or a transition of `usedByMap` to false, as encoded in
`stepOp` from the header's inline bodies. -/
theorem C1_destroyed_iff_empty_at_end :
    ∀ (ops : List BindingOp) (s0 : InstanceSave) (h : ops ≠ []),
      (runOps ops.dropLast s0).1 = false →
      ((runOps ops s0).1 = true ↔
        ((runOps ops s0).2.m_playerList = [] ∧
          (runOps ops s0).2.m_groupList = [] ∧
          (runOps ops s0).2.m_usedByMap = false)) := by
  intro ops s0 h hpre
  obtain ⟨init, l, rfl⟩ : ∃ init l, ops = init ++ [l] :=
    ⟨ops.dropLast, ops.getLast h, (List.dropLast_append_getLast h).symm⟩
  have hdrop : (init ++ [l]).dropLast = init := by simp
  rw [hdrop] at hpre
  rw [runOps_append, hpre]
  simp only [Bool.false_or]
  set s1 := (runOps init s0).2 with hs1
  cases l with
  | addParticipant p =>
    simp [runOps, stepOp, InstanceSave.AddPlayer]
  | removeParticipant p =>
    simp [runOps, stepOp, InstanceSave.RemovePlayer, UnloadIfEmpty_eq_true, and_assoc]
  | addGroup g =>
    simp [runOps, stepOp, InstanceSave.AddGroup]
  | removeGroup g =>
    simp [runOps, stepOp, InstanceSave.RemoveGroup, UnloadIfEmpty_eq_true, and_assoc]
  | setUsedByMap b =>
    cases b with
    | true => simp [runOps, stepOp, InstanceSave.SetUsedByMapState]
    | false =>
      simp [runOps, stepOp, InstanceSave.SetUsedByMapState, UnloadIfEmpty_eq_true, and_assoc]

/-- Witness for C1 on the sequence add participant 2, remove
participant 2 from a fresh binding. -/
theorem C1_witness :
    (runOps [BindingOp.addParticipant 2, BindingOp.removeParticipant 2]
        ⟨[], [], 0, 0, 0, 0, false, false⟩).1 = true ↔
      ((runOps [BindingOp.addParticipant 2, BindingOp.removeParticipant 2]
          ⟨[], [], 0, 0, 0, 0, false, false⟩).2.m_playerList = [] ∧
        (runOps [BindingOp.addParticipant 2, BindingOp.removeParticipant 2]
            ⟨[], [], 0, 0, 0, 0, false, false⟩).2.m_groupList = [] ∧
        (runOps [BindingOp.addParticipant 2, BindingOp.removeParticipant 2]
            ⟨[], [], 0, 0, 0, 0, false, false⟩).2.m_usedByMap = false) :=
  C1_destroyed_iff_empty_at_end
    [BindingOp.addParticipant 2, BindingOp.removeParticipant 2]
    ⟨[], [], 0, 0, 0, 0, false, false⟩ (by decide) (by decide)

end InstanceSaveMgr

namespace InstanceSaveMgr

theorem updateQueue_split (now : Nat) (q : List (Nat × InstanceResetEvent)) :
    (updateQueue now q).1 ++ (updateQueue now q).2 = q := by
  induction q with
  | nil => rfl
  | cons hd tl ih =>
    obtain ⟨t, e⟩ := hd
    by_cases ht : t ≤ now
    · simp [updateQueue, ht, ih]
    · simp [updateQueue, ht]

theorem updateQueue_fired_le (now : Nat) (q : List (Nat × InstanceResetEvent)) :
    ∀ x ∈ (updateQueue now q).1, x.1 ≤ now := by
  induction q with
  | nil => simp [updateQueue]
  | cons hd tl ih =>
    obtain ⟨t, e⟩ := hd
    by_cases ht : t ≤ now
    · intro x hx
      simp only [updateQueue, if_pos ht] at hx
      rcases List.mem_cons.mp hx with h1 | h2
      · rw [h1]
        exact ht
      · exact ih x h2
    · simp [updateQueue, ht]

theorem updateQueue_residue_gt (now : Nat) (q : List (Nat × InstanceResetEvent))
    (hq : List.Sorted (fun a b => a.1 ≤ b.1) q) :
    ∀ x ∈ (updateQueue now q).2, now < x.1 := by
  induction q with
  | nil => simp [updateQueue]
  | cons hd tl ih =>
    obtain ⟨t, e⟩ := hd
    rw [List.sorted_cons] at hq
    by_cases ht : t ≤ now
    · simp only [updateQueue, if_pos ht]
      exact ih hq.2
    · simp only [updateQueue, if_neg ht]
      intro x hx
      rcases List.mem_cons.mp hx with h1 | h2
      · rw [h1]
        omega
      · have := hq.1 x h2
        omega

/-- C2: on a time-sorted queue, one call of `Update` at timestamp `now`
fires exactly the entries with key at most `now` (every such queued entry
is fired, every fired entry is due), in ascending timestamp order, and
leaves no entry with key at most `now` in the queue — however far behind
`now` the oldest entry is. -/
theorem C2_update_fires_all_due_in_order :
    ∀ (now : Nat) (st : InstanceResetScheduler),
      List.Sorted (fun a b => a.1 ≤ b.1) st.m_resetTimeQueue →
      ((InstanceResetScheduler.Update now st).1 ++
          (InstanceResetScheduler.Update now st).2.m_resetTimeQueue = st.m_resetTimeQueue ∧
        (∀ x ∈ (InstanceResetScheduler.Update now st).1, x.1 ≤ now) ∧
        (∀ x ∈ (InstanceResetScheduler.Update now st).2.m_resetTimeQueue, now < x.1) ∧
        (∀ x ∈ st.m_resetTimeQueue, x.1 ≤ now → x ∈ (InstanceResetScheduler.Update now st).1) ∧
        List.Sorted (fun a b => a.1 ≤ b.1) (InstanceResetScheduler.Update now st).1) := by
  intro now st hq
  simp only [InstanceResetScheduler.Update]
  have h1 := updateQueue_split now st.m_resetTimeQueue
  have h2 := updateQueue_fired_le now st.m_resetTimeQueue
  have h3 := updateQueue_residue_gt now st.m_resetTimeQueue hq
  refine ⟨h1, h2, h3, ?_, ?_⟩
  · intro x hx hle
    have hx2 : x ∈ (updateQueue now st.m_resetTimeQueue).1 ++
        (updateQueue now st.m_resetTimeQueue).2 := by
      rw [h1]
      exact hx
    rcases List.mem_append.mp hx2 with hm | hm
    · exact hm
    · have := h3 x hm
      omega
  · have hsub := List.sublist_append_left (updateQueue now st.m_resetTimeQueue).1
      (updateQueue now st.m_resetTimeQueue).2
    rw [h1] at hsub
    exact List.Pairwise.sublist hsub hq

/-- Witness for C2 on a three-entry queue with deadlines 1, 3, 5 and
`now` set to 3. -/
theorem C2_witness :
    (InstanceResetScheduler.Update 3
        ⟨[], [(1, ⟨ResetEventType.RESET_EVENT_DUNGEON, 0, 0, 1⟩),
              (3, ⟨ResetEventType.RESET_EVENT_DUNGEON, 0, 0, 2⟩),
              (5, ⟨ResetEventType.RESET_EVENT_DUNGEON, 0, 0, 3⟩)]⟩).1 ++
      (InstanceResetScheduler.Update 3
        ⟨[], [(1, ⟨ResetEventType.RESET_EVENT_DUNGEON, 0, 0, 1⟩),
              (3, ⟨ResetEventType.RESET_EVENT_DUNGEON, 0, 0, 2⟩),
              (5, ⟨ResetEventType.RESET_EVENT_DUNGEON, 0, 0, 3⟩)]⟩).2.m_resetTimeQueue =
      [(1, ⟨ResetEventType.RESET_EVENT_DUNGEON, 0, 0, 1⟩),
       (3, ⟨ResetEventType.RESET_EVENT_DUNGEON, 0, 0, 2⟩),
       (5, ⟨ResetEventType.RESET_EVENT_DUNGEON, 0, 0, 3⟩)] :=
  (C2_update_fires_all_due_in_order 3 _ (by decide)).1

end InstanceSaveMgr

namespace InstanceSaveMgr

theorem eqOp_self (e : InstanceResetEvent) : InstanceResetEvent.eqOp e e = true := by
  simp [InstanceResetEvent.eqOp]

theorem mem_queueInsert (time : Nat) (event : InstanceResetEvent)
    (q : List (Nat × InstanceResetEvent)) :
    (time, event) ∈ queueInsert time event q := by
  induction q with
  | nil => simp [queueInsert]
  | cons hd tl ih =>
    obtain ⟨t, e⟩ := hd
    by_cases h : time < t
    · simp [queueInsert, h]
    · simp only [queueInsert, if_neg h]
      exact List.mem_cons_of_mem _ ih

theorem queueRemoveFirst_decomp (ev : InstanceResetEvent)
    (q : List (Nat × InstanceResetEvent))
    (hmem : ∃ x ∈ q, InstanceResetEvent.eqOp x.2 ev = true) :
    ∃ a x b, q = a ++ x :: b ∧
      (∀ y ∈ a, InstanceResetEvent.eqOp y.2 ev = false) ∧
      InstanceResetEvent.eqOp x.2 ev = true ∧
      queueRemoveFirst ev q = a ++ b := by
  induction q with
  | nil => simp at hmem
  | cons hd tl ih =>
    obtain ⟨t, e⟩ := hd
    by_cases hh : InstanceResetEvent.eqOp e ev = true
    · refine ⟨[], (t, e), tl, by simp, by simp, hh, ?_⟩
      simp [queueRemoveFirst, hh]
    · have hmem2 : ∃ x ∈ tl, InstanceResetEvent.eqOp x.2 ev = true := by
        rcases hmem with ⟨x, hx, hxe⟩
        rcases List.mem_cons.mp hx with h1 | h2
        · rw [h1] at hxe
          exact absurd hxe hh
        · exact ⟨x, h2, hxe⟩
      rcases ih hmem2 with ⟨a, x, b, heq, ha, hx, hrem⟩
      refine ⟨(t, e) :: a, x, b, ?_, ?_, hx, ?_⟩
      · rw [heq]
        rfl
      · intro y hy
        rcases List.mem_cons.mp hy with h1 | h2
        · rw [h1]
          exact Bool.eq_false_iff.mpr hh
        · exact ha y h2
      · simp only [queueRemoveFirst, if_neg hh, hrem]
        rfl

/-- C3: scheduling an event and then calling `ScheduleReset(false, t2, e)`
removes exactly one queue entry whose event compares equal to `e` by the
identity fields — the first matching one — leaving the rest of the queue
unchanged in order, and the removal's result does not depend on the
timestamp passed to the removing call. -/
theorem C3_schedule_then_remove_exactly_one :
    ∀ (st : InstanceResetScheduler) (t t2 : Nat) (e : InstanceResetEvent),
      (∃ a x b,
        (InstanceResetScheduler.ScheduleReset true t e st).m_resetTimeQueue = a ++ x :: b ∧
        (∀ y ∈ a, InstanceResetEvent.eqOp y.2 e = false) ∧
        InstanceResetEvent.eqOp x.2 e = true ∧
        (InstanceResetScheduler.ScheduleReset false t2 e
            (InstanceResetScheduler.ScheduleReset true t e st)).m_resetTimeQueue = a ++ b) ∧
      (∀ t3 : Nat,
        InstanceResetScheduler.ScheduleReset false t3 e
            (InstanceResetScheduler.ScheduleReset true t e st) =
          InstanceResetScheduler.ScheduleReset false t2 e
            (InstanceResetScheduler.ScheduleReset true t e st)) := by
  intro st t t2 e
  constructor
  · have hmem : ∃ x ∈ queueInsert t e st.m_resetTimeQueue,
        InstanceResetEvent.eqOp x.2 e = true :=
      ⟨(t, e), mem_queueInsert t e _, eqOp_self e⟩
    rcases queueRemoveFirst_decomp e (queueInsert t e st.m_resetTimeQueue) hmem with
      ⟨a, x, b, h1, h2, h3, h4⟩
    refine ⟨a, x, b, ?_, h2, h3, ?_⟩
    · simpa [InstanceResetScheduler.ScheduleReset] using h1
    · simpa [InstanceResetScheduler.ScheduleReset] using h4
  · intro t3
    rfl

theorem findSave_append_self (k : Nat) (v : InstanceSave) (l : List (Nat × InstanceSave))
    (h : findSave k l = none) :
    findSave k (l ++ [(k, v)]) = some v := by
  induction l with
  | nil => simp [findSave]
  | cons hd tl ih =>
    obtain ⟨k1, v1⟩ := hd
    by_cases hk : k1 = k
    · simp [findSave, hk] at h
    · simp only [findSave, if_neg hk] at h
      simp only [List.cons_append, findSave, if_neg hk]
      exact ih h

/-- C5: `AddInstanceSave` returns the existing binding unchanged (state
and all) when `instanceId` is already present — no second entry, no
persist, no schedule — and for a fresh `instanceId` constructs and
appends a new binding that a repeat call will find; it persists and (for
dungeon-type maps) schedules the individual reset event exactly when not
loading from storage. -/
theorem C5_add_instance_save_idempotent :
    ∀ (dgn : Bool) (mapId instanceId : Nat) (d : Difficulty) (rt : Nat) (cr load : Bool)
      (st : InstanceSaveManager),
      (∀ b, findSave instanceId st.m_instanceSaveById = some b →
        InstanceSaveManager.AddInstanceSave dgn mapId instanceId d rt cr load st = (b, st)) ∧
      (findSave instanceId st.m_instanceSaveById = none →
        ((InstanceSaveManager.AddInstanceSave dgn mapId instanceId d rt cr load
              st).2.m_instanceSaveById =
            st.m_instanceSaveById ++
              [(instanceId, ⟨[], [], rt, instanceId, mapId, d, cr, false⟩)] ∧
          findSave instanceId
              (InstanceSaveManager.AddInstanceSave dgn mapId instanceId d rt cr load
                st).2.m_instanceSaveById =
            some (InstanceSaveManager.AddInstanceSave dgn mapId instanceId d rt cr load st).1 ∧
          (load = true →
            ((InstanceSaveManager.AddInstanceSave dgn mapId instanceId d rt cr load
                  st).2.persistedIds = st.persistedIds ∧
              (InstanceSaveManager.AddInstanceSave dgn mapId instanceId d rt cr load
                  st).2.scheduledResetEvents = st.scheduledResetEvents)) ∧
          (load = false →
            ((InstanceSaveManager.AddInstanceSave dgn mapId instanceId d rt cr load
                  st).2.persistedIds = st.persistedIds ++ [instanceId] ∧
              (dgn = true →
                (InstanceSaveManager.AddInstanceSave dgn mapId instanceId d rt cr load
                    st).2.scheduledResetEvents =
                  st.scheduledResetEvents ++
                    [(rt, ⟨ResetEventType.RESET_EVENT_DUNGEON, d, mapId, instanceId⟩)]) ∧
              (dgn = false →
                (InstanceSaveManager.AddInstanceSave dgn mapId instanceId d rt cr load
                    st).2.scheduledResetEvents = st.scheduledResetEvents))))) := by
  intro dgn mapId instanceId d rt cr load st
  constructor
  · intro b hb
    simp [InstanceSaveManager.AddInstanceSave, hb]
  · intro hn
    cases load with
    | true =>
      refine ⟨?_, ?_, ?_, ?_⟩
      · simp [InstanceSaveManager.AddInstanceSave, hn]
      · simp only [InstanceSaveManager.AddInstanceSave, hn]
        exact findSave_append_self instanceId _ _ hn
      · intro hload
        constructor
        · simp [InstanceSaveManager.AddInstanceSave, hn]
        · simp [InstanceSaveManager.AddInstanceSave, hn]
      · intro hload
        exact absurd hload (by simp)
    | false =>
      cases dgn with
      | true =>
        refine ⟨?_, ?_, ?_, ?_⟩
        · simp [InstanceSaveManager.AddInstanceSave, hn]
        · simp only [InstanceSaveManager.AddInstanceSave, hn]
          exact findSave_append_self instanceId _ _ hn
        · intro hload
          exact absurd hload (by simp)
        · intro hload
          refine ⟨?_, ?_, ?_⟩
          · simp [InstanceSaveManager.AddInstanceSave, hn]
          · intro hd2
            simp [InstanceSaveManager.AddInstanceSave, hn]
          · intro hd2
            exact absurd hd2 (by simp)
      | false =>
        refine ⟨?_, ?_, ?_, ?_⟩
        · simp [InstanceSaveManager.AddInstanceSave, hn]
        · simp only [InstanceSaveManager.AddInstanceSave, hn]
          exact findSave_append_self instanceId _ _ hn
        · intro hload
          exact absurd hload (by simp)
        · intro hload
          refine ⟨?_, ?_, ?_⟩
          · simp [InstanceSaveManager.AddInstanceSave, hn]
          · intro hd2
            exact absurd hd2 (by simp)
          · intro hd2
            simp [InstanceSaveManager.AddInstanceSave, hn]

/-- Witness for C5: a fresh dungeon instance added to an empty registry
with `load = false` gets exactly one scheduled reset event. -/
theorem C5_witness :
    (InstanceSaveManager.AddInstanceSave true 249 7 0 0 true false
        ⟨[], [], []⟩).2.scheduledResetEvents =
      [] ++ [(0, ⟨ResetEventType.RESET_EVENT_DUNGEON, 0, 249, 7⟩)] :=
  (((C5_add_instance_save_idempotent true 249 7 0 0 true false ⟨[], [], []⟩).2
      rfl).2.2.2 rfl).2.1 rfl

end InstanceSaveMgr
